import Mathlib

/-
Verification development for the dnp3py DNP3 master stack.

Shallow embedding conventions:
- Python `bytes` values are `List Nat`; every byte produced by the source code
  is < 256 by construction, and the embedding mirrors the masking (`&&& 255`)
  the source performs when it builds bytes.
- Stateful layers (transport reassembly) are explicit state-passing functions.
- Python exceptions become `Except` errors; each distinct raise site family is
  one constructor of an error type.
- The wall clock used by the transport reassembly timeout and by the
  select-before-operate window is lifted to an explicit parameter (a Bool
  "elapsed > timeout" flag for reassembly, a rational elapsed time for SBO).
-/

/-! ## CRC engine (src/utils/crc.py, class CRC16DNP3) -/

/-- One shift-xor round of the table generator (inner loop of `_init_table`):
shift right one bit and xor the reflected polynomial 0xA6BC when the low bit
was set. -/
def crcRound (c : Nat) : Nat :=
  if c &&& 1 = 1 then (c >>> 1) ^^^ 0xA6BC else c >>> 1

/-- Entry `i` of the 256-entry lookup table of `CRC16DNP3._init_table`:
eight rounds applied to `i`. -/
def crcTable (i : Nat) : Nat := crcRound^[8] i

/-- One byte step of `CRC16DNP3.calculate`. -/
def crcUpdate (crc b : Nat) : Nat :=
  (crc >>> 8) ^^^ crcTable ((crc ^^^ b) &&& 255)

/-- `CRC16DNP3.calculate`: fold the table update over the data starting from
0x0000, then apply the final DNP3 inversion (xor 0xFFFF). -/
def crc16 (data : List Nat) : Nat :=
  (data.foldl crcUpdate 0) ^^^ 0xFFFF

/-- Two little-endian bytes of a 16-bit value (`int.to_bytes(2, "little")`). -/
def le16 (n : Nat) : List Nat := [n &&& 255, (n >>> 8) &&& 255]

/-- `CRC16DNP3.calculate_bytes`: the CRC serialized little-endian. -/
def crc16Bytes (data : List Nat) : List Nat := le16 (crc16 data)

/-- Read two little-endian bytes at index `i` (`int.from_bytes(data[i:i+2], "little")`). -/
def readLE16 (data : List Nat) (i : Nat) : Nat :=
  data.getD i 0 + 256 * data.getD (i + 1) 0

/-! ## Data Link Layer (src/layers/datalink.py) -/

/-- Error kinds raised by the data link layer: `DNP3FrameError`, `DNP3CRCError`,
and the `ValueError` of `_validate_address`. -/
inductive DLErr where
  | frame
  | crc
  | badAddress
deriving Repr, DecidableEq

/-- The parsed frame record `DataLinkFrame` (datalink.py). -/
structure DataLinkFrame where
  destination : Nat
  source : Nat
  control : Nat
  userData : List Nat
deriving Repr, DecidableEq

/-- Control byte built by `DataLinkLayer.build_frame`: DIR | PRM, then either
USER_DATA_CONFIRMED (0x03) with optional FCV/FCB bits, or
USER_DATA_UNCONFIRMED (0x04). -/
def dllControl (confirmed fcv fcb : Bool) : Nat :=
  let c := 0x80 ||| 0x40
  if confirmed then
    let c := c ||| 0x03
    if fcv then
      let c := c ||| 0x10
      if fcb then c ||| 0x20 else c
    else c
  else c ||| 0x04

/-- The user-data section of a frame: successive 16-byte blocks, each followed
by its own CRC (the block loop at the end of `build_frame`). -/
def buildBlocks (u : List Nat) : List Nat :=
  if h : u = [] then []
  else u.take 16 ++ crc16Bytes (u.take 16) ++ buildBlocks (u.drop 16)
termination_by u.length
decreasing_by
  simp only [List.length_drop]
  have : 0 < u.length := List.length_pos.mpr h
  omega

/-- `DataLinkLayer.build_frame`: reject user data over 250 bytes, validate the
addresses (0..65519), then emit start bytes, length (5 + |U|), control,
little-endian destination and source, header CRC, and the CRC-protected
blocks. -/
def buildFrame (userData : List Nat) (dest src : Nat) (confirmed fcv fcb : Bool) :
    Except DLErr (List Nat) :=
  if 250 < userData.length then .error .frame
  else if 65519 < dest then .error .badAddress
  else if 65519 < src then .error .badAddress
  else
    let header := [5, 100, 5 + userData.length, dllControl confirmed fcv fcb] ++
      le16 dest ++ le16 src
    .ok (header ++ crc16Bytes header ++ buildBlocks userData)

/-- The block-reading loop of `DataLinkLayer.parse_frame`: starting at
`offset` with `remaining` user-data bytes still expected, read
`min(remaining, 16)`-byte blocks each followed by a 2-byte CRC, verifying
every block CRC, and return the concatenated user data together with the
final offset (the bytes consumed). -/
def parseBlocks (data : List Nat) (offset remaining : Nat) :
    Except DLErr (List Nat × Nat) :=
  if h : remaining = 0 then .ok ([], offset)
  else
    let bs := min remaining 16
    if data.length < offset + bs + 2 then .error .frame
    else
      let block := (data.drop offset).take bs
      if readLE16 data (offset + bs) ≠ crc16 block then .error .crc
      else
        match parseBlocks data (offset + bs + 2) (remaining - bs) with
        | .error e => .error e
        | .ok (ud, fin) => .ok (block ++ ud, fin)
termination_by remaining
decreasing_by omega

/-- `DataLinkLayer.parse_frame`: require at least the 10 header bytes, check
the 0x05 0x64 start bytes, verify the header CRC over the first 8 bytes,
reject a length field below 5, and read the user-data blocks. Returns the
frame and the number of bytes consumed. -/
def parseFrame (data : List Nat) : Except DLErr (DataLinkFrame × Nat) :=
  match data with
  | b0 :: b1 :: len :: ctl :: d0 :: d1 :: s0 :: s1 :: c0 :: c1 :: rest =>
    if ¬ (b0 = 5 ∧ b1 = 100) then .error .frame
    else if c0 + 256 * c1 ≠ crc16 [b0, b1, len, ctl, d0, d1, s0, s1] then .error .crc
    else if len < 5 then .error .frame
    else if len - 5 = 0 then
      .ok (⟨d0 + 256 * d1, s0 + 256 * s1, ctl, []⟩, 10)
    else
      match parseBlocks (b0 :: b1 :: len :: ctl :: d0 :: d1 :: s0 :: s1 :: c0 :: c1 :: rest)
          10 (len - 5) with
      | .error e => .error e
      | .ok (ud, off) => .ok (⟨d0 + 256 * d1, s0 + 256 * s1, ctl, ud⟩, off)
  | _ => .error .frame

/-- `DataLinkLayer.calculate_frame_size`: total frame size implied by the
length byte; rejects lengths below 5, above 255, or implying more than 250
user-data bytes. -/
def calculateFrameSize (lengthByte : Nat) : Except DLErr Nat :=
  if lengthByte < 5 then .error .frame
  else if 255 < lengthByte then .error .frame
  else
    let udl := lengthByte - 5
    if udl = 0 then .ok 10
    else if 250 < udl then .error .frame
    else .ok (10 + (udl / 16) * 18 + (if udl % 16 = 0 then 0 else udl % 16 + 2))

/-! ## Transport Function (src/layers/transport.py) -/

/-- Error kinds of the `DNP3FrameError` raise sites in `TransportLayer.reassemble`
and `TransportSegment.from_bytes` / `validate`. -/
inductive TErr where
  | tooShort
  | payloadTooBig
  | noFirst
  | timeout
  | seqMismatch
  | sizeLimit
deriving Repr, DecidableEq

/-- Receive-side state of `TransportLayer`: `_rx_buffer`, `_rx_expected_sequence`,
`_rx_started`, `_rx_last_sequence`. The clock fields `_rx_start_time` and
`_rx_timeout_seconds` are lifted out of the state: the only observation the
code makes of them is the comparison `elapsed > timeout`, which the embedding
takes as the explicit `timedOut` argument of `reassemble`. -/
structure RxState where
  buffer : List Nat
  expected : Option Nat
  started : Bool
  lastSeq : Option Nat
deriving Repr, DecidableEq

/-- The reset receive state of `TransportLayer._reset_rx` (also the fresh state
of `__init__`). -/
def initRx : RxState := ⟨[], none, false, none⟩

/-- `TransportSegment.header`: 6-bit sequence with the FIR (0x40) and FIN (0x80)
flag bits. -/
def mkTransportHdr (seq : Nat) (first final : Bool) : Nat :=
  ((seq &&& 63) ||| (if first then 64 else 0)) ||| (if final then 128 else 0)

/-- `TransportSegment.to_bytes`: header byte followed by the payload. -/
def segToBytes (seq : Nat) (first final : Bool) (payload : List Nat) : List Nat :=
  mkTransportHdr seq first final :: payload

/-- The segmentation loop of `TransportLayer.segment` for a non-empty APDU:
payloads of `min(remaining, 249)` bytes, FIR on the first, FIN on the last,
sequence incremented mod 64 per segment. -/
def segLoop (l : List Nat) (seq : Nat) (first : Bool) : List (List Nat) :=
  if h : l = [] then []
  else
    segToBytes seq first (decide (l.length ≤ 249)) (l.take 249) ::
      segLoop (l.drop 249) ((seq + 1) &&& 63) false
termination_by l.length
decreasing_by
  simp only [List.length_drop]
  have : 0 < l.length := List.length_pos.mpr h
  omega

/-- `TransportLayer.segment` from transmit sequence `txSeq`: an empty APDU
yields a single FIR+FIN segment with empty payload; otherwise the loop. -/
def segmentTx (apdu : List Nat) (txSeq : Nat) : List (List Nat) :=
  if apdu = [] then [segToBytes txSeq true true []]
  else segLoop apdu txSeq true

/-- `TransportLayer.reassemble`: returns the post-call receive state together
with either the `(reassembled, complete)` pair or the raised error. Mirrors
the source order of checks: segment decode, payload size validation, FIR
handling (restart), missing-first error, reassembly timeout, duplicate
suppression, sequence check, 65536-byte size cap, append / emit. -/
def reassemble (st : RxState) (data : List Nat) (timedOut : Bool) :
    RxState × Except TErr (Option (List Nat) × Bool) :=
  match data with
  | [] => (st, .error .tooShort)
  | h :: payload =>
    let seq := h &&& 63
    if 249 < payload.length then (st, .error .payloadTooBig)
    else if h &&& 64 ≠ 0 then
      if h &&& 128 ≠ 0 then (initRx, .ok (some payload, true))
      else
        ({ buffer := payload, expected := some ((seq + 1) &&& 63),
           started := true, lastSeq := some seq }, .ok (none, false))
    else if st.started = false then (st, .error .noFirst)
    else if timedOut then (initRx, .error .timeout)
    else if st.lastSeq = some seq then (st, .ok (none, false))
    else if st.expected ≠ some seq then (initRx, .error .seqMismatch)
    else if 65536 < st.buffer.length + payload.length then (initRx, .error .sizeLimit)
    else if h &&& 128 ≠ 0 then (initRx, .ok (some (st.buffer ++ payload), true))
    else
      ({ buffer := st.buffer ++ payload, expected := some ((seq + 1) &&& 63),
         started := true, lastSeq := some seq }, .ok (none, false))

/-- Feed a list of raw segments into `reassemble` in order (no timeout between
them), collecting the per-segment results; `none` if any call raised. -/
def feedAll (st : RxState) : List (List Nat) → Option (List (Option (List Nat) × Bool))
  | [] => some []
  | s :: rest =>
    match reassemble st s false with
    | (st2, .ok r) => (feedAll st2 rest).map (r :: ·)
    | (_, .error _) => none

/-! ## Object sizes (src/objects/groups.py) -/

/-- `get_object_size` over the `OBJECT_SIZES` table: fixed byte size of a
(group, variation) pair, `none` for packed/variable or unknown pairs. -/
def getObjectSize (g v : Nat) : Option Nat :=
  match g, v with
  | 1, 1 => none
  | 1, 2 => some 1
  | 2, 1 => some 1
  | 2, 2 => some 7
  | 2, 3 => some 3
  | 3, 1 => none
  | 3, 2 => some 1
  | 4, 1 => some 1
  | 4, 2 => some 7
  | 4, 3 => some 3
  | 10, 1 => none
  | 10, 2 => some 1
  | 11, 1 => some 1
  | 11, 2 => some 7
  | 12, 1 => some 11
  | 12, 2 => none
  | 12, 3 => none
  | 13, 1 => some 11
  | 13, 2 => some 17
  | 20, 1 => some 5
  | 20, 2 => some 3
  | 20, 3 => some 5
  | 20, 4 => some 3
  | 20, 5 => some 4
  | 20, 6 => some 2
  | 20, 7 => some 4
  | 20, 8 => some 2
  | 21, 1 => some 5
  | 21, 2 => some 3
  | 21, 3 => some 5
  | 21, 4 => some 3
  | 21, 5 => some 4
  | 21, 6 => some 2
  | 21, 7 => some 4
  | 21, 8 => some 2
  | 21, 9 => some 11
  | 21, 10 => some 9
  | 21, 11 => some 11
  | 21, 12 => some 9
  | 22, 1 => some 5
  | 22, 2 => some 3
  | 22, 3 => some 5
  | 22, 4 => some 3
  | 22, 5 => some 11
  | 22, 6 => some 9
  | 22, 7 => some 11
  | 22, 8 => some 9
  | 23, 1 => some 5
  | 23, 2 => some 3
  | 23, 3 => some 5
  | 23, 4 => some 3
  | 23, 5 => some 11
  | 23, 6 => some 9
  | 23, 7 => some 11
  | 23, 8 => some 9
  | 30, 1 => some 5
  | 30, 2 => some 3
  | 30, 3 => some 4
  | 30, 4 => some 2
  | 30, 5 => some 5
  | 30, 6 => some 9
  | 31, 1 => some 5
  | 31, 2 => some 3
  | 31, 3 => some 11
  | 31, 4 => some 9
  | 31, 5 => some 4
  | 31, 6 => some 2
  | 31, 7 => some 5
  | 31, 8 => some 9
  | 32, 1 => some 5
  | 32, 2 => some 3
  | 32, 3 => some 11
  | 32, 4 => some 9
  | 32, 5 => some 5
  | 32, 6 => some 9
  | 32, 7 => some 11
  | 32, 8 => some 15
  | 33, 1 => some 5
  | 33, 2 => some 3
  | 33, 3 => some 11
  | 33, 4 => some 9
  | 33, 5 => some 5
  | 33, 6 => some 9
  | 33, 7 => some 11
  | 33, 8 => some 15
  | 34, 1 => some 2
  | 34, 2 => some 4
  | 34, 3 => some 4
  | 40, 1 => some 5
  | 40, 2 => some 3
  | 40, 3 => some 5
  | 40, 4 => some 9
  | 41, 1 => some 5
  | 41, 2 => some 3
  | 41, 3 => some 5
  | 41, 4 => some 9
  | 42, 1 => some 5
  | 42, 2 => some 3
  | 42, 3 => some 11
  | 42, 4 => some 9
  | 42, 5 => some 5
  | 42, 6 => some 9
  | 42, 7 => some 11
  | 42, 8 => some 15
  | 43, 1 => some 5
  | 43, 2 => some 3
  | 43, 3 => some 11
  | 43, 4 => some 9
  | 43, 5 => some 5
  | 43, 6 => some 9
  | 43, 7 => some 11
  | 43, 8 => some 15
  | 50, 1 => some 6
  | 50, 2 => some 10
  | 50, 3 => some 6
  | 50, 4 => some 6
  | 51, 1 => some 6
  | 51, 2 => some 6
  | 52, 1 => some 2
  | 52, 2 => some 2
  | 80, 1 => some 1
  | _, _ => none

/-! ## Application Layer (src/layers/application.py) -/

/-- Error kinds `DNP3ProtocolError` / `DNP3ObjectError` (and the `ValueError`
raise sites of the object codecs, kept separate as `value`). -/
inductive AErr where
  | protocol
  | object
  | value
deriving Repr, DecidableEq

/-- The `ObjectHeader` record (group, variation, qualifier, range, count, and
the offset of the section data inside `raw_data`). -/
structure ObjHeaderRec where
  group : Nat
  variation : Nat
  qualifier : Nat
  rangeStart : Nat
  rangeStop : Nat
  count : Nat
  dataOffset : Nat
deriving Repr, DecidableEq

/-- `ApplicationResponse._calculate_object_data_size`: bytes of section data
after the header. Fixed sizes come from the table; groups 1 and 10 variation 1
are bit-packed (`ceil(count/8)`); indexed qualifiers add the index size to a
required per-object size; anything else is a `DNP3ObjectError`. -/
def calculateObjectDataSize (g v q count rs rstop : Nat) : Except AErr Nat :=
  if count = 0 then .ok 0
  else
    match getObjectSize g v with
    | some sz => .ok (sz * count)
    | none =>
      if (g = 1 ∨ g = 10) ∧ v = 1 then .ok ((count + 7) / 8)
      else if q = 0x17 then
        match getObjectSize g v with
        | some b => .ok (count * (1 + b))
        | none => .error .object
      else if q = 0x28 then
        match getObjectSize g v with
        | some b => .ok (count * (2 + b))
        | none => .error .object
      else if q = 0x29 then
        match getObjectSize g v with
        | some b => .ok (count * (2 + b))
        | none => .error .object
      else .error .object

/-- `ObjectHeader.from_bytes`: parse group, variation, qualifier and the
qualifier-dependent range/count starting at `offset`. Returns the header and
the number of bytes consumed (always at least the 3 header bytes, recorded in
the subtype so the response parse loop visibly advances). -/
def objectHeaderFromBytes (data : List Nat) (offset : Nat) :
    Except AErr (ObjHeaderRec × {n : Nat // 3 ≤ n}) :=
  if data.length < offset then .error .object
  else if data.length - offset < 3 then .error .object
  else
    let g := data.getD offset 0
    let v := data.getD (offset + 1) 0
    let q := data.getD (offset + 2) 0
    if q = 0x00 then
      if data.length - offset - 3 < 2 then .error .object
      else
        let rs := data.getD (offset + 3) 0
        let rt := data.getD (offset + 4) 0
        if rt < rs then .error .object
        else .ok (⟨g, v, q, rs, rt, rt - rs + 1, 0⟩, ⟨5, by omega⟩)
    else if q = 0x01 then
      if data.length - offset - 3 < 4 then .error .object
      else
        let rs := readLE16 data (offset + 3)
        let rt := readLE16 data (offset + 5)
        if rt < rs then .error .object
        else .ok (⟨g, v, q, rs, rt, rt - rs + 1, 0⟩, ⟨7, by omega⟩)
    else if q = 0x06 then .ok (⟨g, v, q, 0, 0, 0, 0⟩, ⟨3, by omega⟩)
    else if q = 0x07 then
      if data.length - offset - 3 < 1 then .error .object
      else .ok (⟨g, v, q, 0, 0, data.getD (offset + 3) 0, 0⟩, ⟨4, by omega⟩)
    else if q = 0x08 then
      if data.length - offset - 3 < 2 then .error .object
      else .ok (⟨g, v, q, 0, 0, readLE16 data (offset + 3), 0⟩, ⟨5, by omega⟩)
    else if q = 0x17 then
      if data.length - offset - 3 < 1 then .error .object
      else .ok (⟨g, v, q, 0, 0, data.getD (offset + 3) 0, 0⟩, ⟨4, by omega⟩)
    else if q = 0x28 then
      if data.length - offset - 3 < 1 then .error .object
      else .ok (⟨g, v, q, 0, 0, data.getD (offset + 3) 0, 0⟩, ⟨4, by omega⟩)
    else if q = 0x29 then
      if data.length - offset - 3 < 2 then .error .object
      else .ok (⟨g, v, q, 0, 0, readLE16 data (offset + 3), 0⟩, ⟨5, by omega⟩)
    else .error .object

/-- The object-section loop of `ApplicationResponse.from_bytes`: while bytes
remain, parse a header and its data size; a `DNP3ObjectError` from either step
breaks the loop (it is caught and swallowed), as does a section that does not
fit in the remaining bytes; only the internal negative-offset sanity check
raises (a `DNP3ProtocolError`, not caught by the loop). -/
def parseObjectsLoop (data : List Nat) (offset : Nat) :
    Except AErr (List ObjHeaderRec) :=
  if h0 : data.length ≤ offset then .ok []
  else
    match objectHeaderFromBytes data offset with
    | .error _ => .ok []
    | .ok (oh, hc) =>
      match calculateObjectDataSize oh.group oh.variation oh.qualifier oh.count
          oh.rangeStart oh.rangeStop with
      | .error _ => .ok []
      | .ok dsz =>
        if data.length < offset + (hc.val + dsz) then .ok []
        else if offset + hc.val < 4 then .error .protocol
        else
          match parseObjectsLoop data (offset + (hc.val + dsz)) with
          | .error e => .error e
          | .ok rest => .ok ({ oh with dataOffset := offset + hc.val - 4 } :: rest)
termination_by data.length - offset
decreasing_by
  have := hc.property
  omega

/-- The `ApplicationResponse` record: control-byte fields, function, the two
IIN bytes, the parsed object headers, and `raw_data = data[4:]`. -/
structure ARsp where
  function : Nat
  sequence : Nat
  first : Bool
  final : Bool
  confirmRequired : Bool
  unsolicited : Bool
  iin1 : Nat
  iin2 : Nat
  objects : List ObjHeaderRec
  rawData : List Nat
deriving Repr, DecidableEq

/-- `ApplicationResponse.from_bytes`: at least 4 bytes, function must be one of
0x81/0x82/0x83, then the object-section loop from offset 4. -/
def appResponseFromBytes (data : List Nat) : Except AErr ARsp :=
  match data with
  | c :: f :: i1 :: i2 :: _ =>
    if ¬ (f = 0x81 ∨ f = 0x82 ∨ f = 0x83) then .error .protocol
    else
      match parseObjectsLoop data 4 with
      | .error e => .error e
      | .ok objs =>
        .ok ⟨f, c &&& 15, c &&& 128 != 0, c &&& 64 != 0, c &&& 32 != 0,
          c &&& 16 != 0, i1, i2, objs, data.drop 4⟩
  | _ => .error .protocol

/-- Check whether an `Except` succeeded. -/
def exceptIsOk {ε α : Type} : Except ε α → Bool
  | .ok _ => true
  | .error _ => false

/-! ## IIN flags (src/core/config.py) and control checking (src/core/master.py) -/

/-- `IINFlags.has_errors` for an IIN composed via `IINFlags.from_bytes`: any of
no_func_code_support (bit 0), object_unknown (bit 1), parameter_error (bit 2),
config_corrupt (bit 5) of the second IIN byte (masked to 8 bits as
`from_bytes` does). -/
def hasIINErrors (iin2 : Nat) : Bool :=
  let m := iin2 &&& 255
  (m &&& 1 != 0) || (m &&& 2 != 0) || (m &&& 4 != 0) || (m &&& 32 != 0)

/-- Index bytes added per object by an indexed qualifier, as computed in
`DNP3Master._check_control_response` (0x17 adds 1, 0x28/0x29 add 2, others 0). -/
def indexSize (q : Nat) : Nat :=
  if q = 0x17 then 1
  else if q = 0x28 ∨ q = 0x29 then 2
  else 0

/-- The CROB echo loop of `_check_control_response` for one Group-12 section:
walk `count` objects spaced `total = indexSize + objSize` bytes from `base`,
stop silently when an object would run past the buffer, and fail when the
status byte (offset 10 inside the CROB, past the index bytes) is non-zero.
`i` is the loop index, the second argument the remaining iterations. -/
def crobStatusLoop (raw : List Nat) (base total ips sz : Nat) : Nat → Nat → Bool
  | _, 0 => true
  | i, r + 1 =>
    if raw.length < base + i * total + ips + sz then true
    else if raw.getD (base + i * total + ips + 10) 0 ≠ 0 then false
    else crobStatusLoop raw base total ips sz (i + 1) r

/-- The AOB echo loop of `_check_control_response` for one Group-41 section:
as for CROBs but the status byte is the last byte of the object. -/
def aobStatusLoop (raw : List Nat) (base total ips sz : Nat) : Nat → Nat → Bool
  | _, 0 => true
  | i, r + 1 =>
    if raw.length < base + i * total + ips + sz then true
    else if raw.getD (base + i * total + ips + sz - 1) 0 ≠ 0 then false
    else aobStatusLoop raw base total ips sz (i + 1) r

/-- Per-section body of the `_check_control_response` loop: Group 12 sections
with a known size of at least 11 run the CROB status walk, Group 41 sections
with a known size run the AOB status walk, everything else passes. -/
def checkObj (raw : List Nat) (o : ObjHeaderRec) : Bool :=
  let ips := indexSize o.qualifier
  if o.group = 12 then
    match getObjectSize 12 o.variation with
    | none => true
    | some sz =>
      if sz < 11 then true
      else crobStatusLoop raw o.dataOffset (ips + sz) ips sz 0 o.count
  else if o.group = 41 then
    match getObjectSize 41 o.variation with
    | none => true
    | some sz => aobStatusLoop raw o.dataOffset (ips + sz) ips sz 0 o.count
  else true

/-- `DNP3Master._check_control_response`: false on IIN error bits, otherwise
every echoed control section must pass its status walk. -/
def checkControlResponse (r : ARsp) : Bool :=
  if hasIINErrors r.iin2 then false
  else r.objects.all (checkObj r.rawData)

/-! ## Control request building (src/core/master.py, src/objects/binary.py) -/

/-- Four little-endian bytes of a 32-bit value (`struct.pack` "I"). -/
def le32 (n : Nat) : List Nat :=
  [n &&& 255, (n >>> 8) &&& 255, (n >>> 16) &&& 255, (n >>> 24) &&& 255]

/-- `BinaryOutputCommand.to_bytes` (Group 12 Var 1 CROB layout, `<BBIIB`):
control code, count, on_time, off_time, status. -/
def crobToBytes (controlCode count onTime offTime status : Nat) : List Nat :=
  [controlCode &&& 255, count &&& 255] ++ le32 onTime ++ le32 offTime ++ [status &&& 255]

/-- `ObjectHeader.to_bytes` for the counted qualifiers 0x07/0x17/0x28 (one
count byte) followed by the object data; other qualifiers are not needed by
the control path and are omitted from the embedding. -/
def objHeaderBytesCount8 (g v q count : Nat) (data : List Nat) : List Nat :=
  [g, v, q, count &&& 255] ++ data

/-- The application control byte of `ApplicationRequest.control`: FIR (0x80),
FIN (0x40), CON (0x20) over the 4-bit sequence. -/
def appControlByte (seq : Nat) (first final confirm : Bool) : Nat :=
  (((seq &&& 15) ||| (if first then 128 else 0)) ||| (if final then 64 else 0)) |||
    (if confirm then 32 else 0)

/-- `ApplicationLayer.build_request` composed with `ApplicationRequest.to_bytes`
for a single object section: control byte (FIR=FIN=1, CON per call), function,
section bytes. -/
def buildRequest (function seq : Nat) (objBytes : List Nat) : List Nat :=
  appControlByte seq true true false :: function :: objBytes

/-- `DNP3Master._direct_operate_crob` request side: Group 12 Var 1,
qualifier 0x28 (UINT8_COUNT_UINT16_INDEX), count 1, data = 2-byte
little-endian point index followed by the 11 CROB bytes, sent under
function DIRECT_OPERATE (0x05). -/
def directOperateCrobAPDU (index controlCode seq : Nat) : List Nat :=
  buildRequest 5 seq
    (objHeaderBytesCount8 12 1 0x28 1
      ([index &&& 255, (index >>> 8) &&& 255] ++ crobToBytes controlCode 1 0 0 0))

/-- The control code chosen by `direct_operate_binary` when no explicit code is
given: LATCH_ON (0x03) for true, LATCH_OFF (0x04) for false
(`BinaryOutputCommand.latch_on` / `latch_off`). -/
def latchCode (value : Bool) : Nat := if value then 3 else 4

/-- `DNP3Master._select_operate_crob` decision flow with the wall clock lifted
to the rational `elapsed` argument: the SELECT response must arrive and pass
`_check_control_response`; then OPERATE is sent only when
`elapsed < select_timeout` (the code fails on `elapsed >= timeout`). Returns
(OPERATE was sent, overall success). -/
def selectOperateFlow (selectResp : Option ARsp) (elapsed timeout : ℚ)
    (operateResp : Option ARsp) : Bool × Bool :=
  match selectResp with
  | none => (false, false)
  | some r =>
    if checkControlResponse r = false then (false, false)
    else if timeout ≤ elapsed then (false, false)
    else
      match operateResp with
      | none => (true, false)
      | some r2 => (true, checkControlResponse r2)

/-- The frames emitted by `DNP3Master._send_request` for one APDU: segment the
APDU from the current transport sequence, then wrap each segment in a data
link frame with `confirmed = fcv = config.confirm_required` and the current
FCB toggle, addressed outstation/master. -/
def sendRequestFrames (apdu : List Nat) (txSeq : Nat) (confirmed fcb : Bool)
    (dest src : Nat) : List (Except DLErr (List Nat)) :=
  (segmentTx apdu txSeq).map (fun s => buildFrame s dest src confirmed confirmed fcb)

/-! ## Binary input decoding (src/objects/binary.py) -/

/-- The decoded `BinaryInput` record (index, state, flag byte, optional
timestamp). -/
structure BinaryInputPt where
  index : Nat
  value : Bool
  flags : Nat
  timestamp : Option Nat
deriving Repr, DecidableEq

/-- Little-endian integer value of a byte list (`int.from_bytes(l, "little")`). -/
def leBytes (l : List Nat) : Nat :=
  l.foldr (fun b acc => b + 256 * acc) 0

/-- `BinaryInput.from_bytes`: variation 1 is a packed bit (flags fixed to
ONLINE = 1); variation 2 is a flag byte whose bit 7 is the state, with a
48-bit little-endian absolute timestamp when at least 7 bytes are present;
variation 3 is a flag byte plus a 16-bit relative timestamp. -/
def binaryInputFromBytes (data : List Nat) (index variation : Nat) :
    Except AErr BinaryInputPt :=
  if variation = 1 then
    match data with
    | [] => .error .value
    | b :: _ => .ok ⟨index, b &&& 1 != 0, 1, none⟩
  else if variation = 2 then
    match data with
    | [] => .error .value
    | b :: rest =>
      let ts := if 7 ≤ data.length then some (leBytes (rest.take 6)) else none
      .ok ⟨index, b &&& 128 != 0, b, ts⟩
  else if variation = 3 then
    if data.length < 3 then .error .value
    else
      match data with
      | b :: rest => .ok ⟨index, b &&& 128 != 0, b, some (leBytes (rest.take 2))⟩
      | [] => .error .value
  else .error .value

/-- The variation-1 (packed) loop of `parse_binary_inputs`: bit `i % 8` of byte
`i / 8`, stopping when the byte index runs past the data. -/
def parseBI1Loop (data : List Nat) (startIndex : Nat) : Nat → Nat → List BinaryInputPt
  | _, 0 => []
  | i, r + 1 =>
    if data.length ≤ i / 8 then []
    else
      ⟨startIndex + i, data.getD (i / 8) 0 &&& (1 <<< (i % 8)) != 0, 1, none⟩ ::
        parseBI1Loop data startIndex (i + 1) r

/-- The fixed-record loop of `parse_binary_inputs` for variations 2 and 3:
records of `objSize` bytes at increasing offsets, breaking as soon as a whole
record no longer fits, each decoded by `BinaryInput.from_bytes`. -/
def parseBIRecLoop (data : List Nat) (startIndex objSize variation : Nat) :
    Nat → Nat → Nat → Except AErr (List BinaryInputPt)
  | _, _, 0 => .ok []
  | i, offset, r + 1 =>
    if data.length < offset + objSize then .ok []
    else
      match binaryInputFromBytes ((data.drop offset).take objSize)
          (startIndex + i) variation with
      | .error e => .error e
      | .ok pt =>
        match parseBIRecLoop data startIndex objSize variation (i + 1) (offset + objSize) r with
        | .error e => .error e
        | .ok rest => .ok (pt :: rest)

/-- `parse_binary_inputs`: variation 1 unpacks bits; variation 2 chooses the
record size from the total data length (7 bytes per point when
`len(data) >= count * 7`, otherwise 1); variation 3 uses 3-byte records;
other variations raise `ValueError`. -/
def parseBinaryInputs (data : List Nat) (startIndex count variation : Nat) :
    Except AErr (List BinaryInputPt) :=
  if variation = 1 then .ok (parseBI1Loop data startIndex 0 count)
  else if variation = 2 then
    let objSize := if 7 * count ≤ data.length then 7 else 1
    parseBIRecLoop data startIndex objSize 2 0 0 count
  else if variation = 3 then parseBIRecLoop data startIndex 3 3 0 0 count
  else .error .value

/-! ## Spec-side predicates used to state the claims -/

/-- The reassembly-buffer invariant claimed by the spec: the buffer never
holds more than 65536 bytes, and it is empty whenever no reassembly is in
progress (state Idle, i.e. `_rx_started` false). -/
def rxInv (st : RxState) : Prop :=
  st.buffer.length ≤ 65536 ∧ (st.started = false → st.buffer = [])

/-- The 7-byte record the claim predicts for `parse_binary_inputs` variation 2
when the data is long enough: flag byte at `7 * i`, state = bit 7, 48-bit
little-endian absolute timestamp from the following six bytes. -/
def bi2Wide (data : List Nat) (s i : Nat) : BinaryInputPt :=
  ⟨s + i, data.getD (7 * i) 0 &&& 128 != 0, data.getD (7 * i) 0,
    some (leBytes ((data.drop (7 * i + 1)).take 6))⟩

/-- The 1-byte flag-only record the claim predicts for `parse_binary_inputs`
variation 2 when the data is short: flag byte at `i`, no timestamp. -/
def bi2Narrow (data : List Nat) (s i : Nat) : BinaryInputPt :=
  ⟨s + i, data.getD i 0 &&& 128 != 0, data.getD i 0, none⟩

/-! ## Theorems -/

/-- C3: while a multi-segment reassembly is in progress, a non-FIR segment
whose 6-bit sequence equals the last received sequence is ignored without
error and without touching the state; a non-FIR segment whose sequence
differs from both the last received and the expected sequence raises a frame
error and resets the receive state to Idle; and a non-FIR segment received in
Idle state raises a frame error. -/
theorem reassemble_dup_gap_idle (st : RxState) (h : Nat) (payload : List Nat)
    (hp : payload.length ≤ 249) (hfir : h &&& 64 = 0) :
    (st.started = true → st.lastSeq = some (h &&& 63) →
      reassemble st (h :: payload) false = (st, .ok (none, false))) ∧
    (st.started = true → st.lastSeq ≠ some (h &&& 63) →
      st.expected ≠ some (h &&& 63) →
      reassemble st (h :: payload) false = (initRx, .error .seqMismatch)) ∧
    (st.started = false → reassemble st (h :: payload) false = (st, .error .noFirst)) := by
  refine ⟨?_, ?_, ?_⟩ <;> intros <;>
    simp [reassemble, hfir, show ¬ (249 < payload.length) by omega, *]

/-- C3 witness: the three behaviors at concrete states and segments. -/
theorem reassemble_dup_gap_idle_witness :
    (([5] : List Nat).length ≤ 249 ∧ (1 : Nat) &&& 64 = 0) ∧
    ((RxState.mk [9] (some 2) true (some 1)).started = true →
      (RxState.mk [9] (some 2) true (some 1)).lastSeq = some ((1 : Nat) &&& 63) →
      reassemble ⟨[9], some 2, true, some 1⟩ [1, 5] false =
        (⟨[9], some 2, true, some 1⟩, .ok (none, false))) ∧
    ((RxState.mk [9] (some 2) true (some 1)).started = true →
      (RxState.mk [9] (some 2) true (some 1)).lastSeq ≠ some ((1 : Nat) &&& 63) →
      (RxState.mk [9] (some 2) true (some 1)).expected ≠ some ((1 : Nat) &&& 63) →
      reassemble ⟨[9], some 2, true, some 1⟩ [1, 5] false =
        (initRx, .error .seqMismatch)) ∧
    ((RxState.mk [9] (some 2) true (some 1)).started = false →
      reassemble ⟨[9], some 2, true, some 1⟩ [1, 5] false =
        (⟨[9], some 2, true, some 1⟩, .error .noFirst)) :=
  ⟨⟨by decide, by decide⟩,
    reassemble_dup_gap_idle ⟨[9], some 2, true, some 1⟩ 1 [5] (by decide) (by decide)⟩

/-- C9: after any call to `reassemble` (returning or raising), the reassembly
buffer holds at most 65536 bytes and is empty whenever the state is Idle;
moreover a continuation segment that would push the buffer past 65536 bytes
raises the size-limit error and resets the state to Idle. -/
theorem reassemble_size_invariant (st : RxState) (data : List Nat) (t : Bool)
    (hinv : rxInv st) :
    rxInv (reassemble st data t).1 ∧
    (∀ h payload, data = h :: payload → payload.length ≤ 249 → h &&& 64 = 0 →
      st.started = true → t = false → st.lastSeq ≠ some (h &&& 63) →
      st.expected = some (h &&& 63) →
      65536 < st.buffer.length + payload.length →
      reassemble st data t = (initRx, .error .sizeLimit)) := by
  constructor
  · match data with
    | [] => simpa [reassemble] using hinv
    | h :: payload =>
      simp only [reassemble]
      split_ifs with h1 h2 h3 h4 h5 h6 h7 h8 h9 <;>
        simp_all [rxInv, initRx] <;> omega
  · intro h payload hdata hp hfir hst ht hdup hexp hbig
    subst hdata ht
    simp [reassemble, hfir, hst, hdup, hexp, hbig,
      show ¬ (249 < payload.length) by omega]

/-- C9 witness: the invariant is preserved on a concrete receiving state and
continuation segment. -/
theorem reassemble_size_invariant_witness :
    rxInv ⟨[9], some 1, true, some 0⟩ ∧
    (rxInv (reassemble ⟨[9], some 1, true, some 0⟩ [1, 5] false).1 ∧
    (∀ h payload, ([1, 5] : List Nat) = h :: payload → payload.length ≤ 249 →
      h &&& 64 = 0 →
      (RxState.mk [9] (some 1) true (some 0)).started = true →
      false = false →
      (RxState.mk [9] (some 1) true (some 0)).lastSeq ≠ some (h &&& 63) →
      (RxState.mk [9] (some 1) true (some 0)).expected = some (h &&& 63) →
      65536 < (RxState.mk [9] (some 1) true (some 0)).buffer.length + payload.length →
      reassemble ⟨[9], some 1, true, some 0⟩ [1, 5] false =
        (initRx, .error .sizeLimit))) :=
  ⟨⟨by decide, by decide⟩,
    reassemble_size_invariant ⟨[9], some 1, true, some 0⟩ [1, 5] false
      ⟨by decide, by decide⟩⟩

theorem and63_lt (x : Nat) : x &&& 63 < 64 :=
  lt_of_le_of_lt Nat.and_le_right (by norm_num)

theorem and63_succ_ne (p : Nat) (hp : p < 64) : (p + 1) &&& 63 ≠ p := by
  revert p
  decide

theorem mkHdr_and63 (s : Nat) (hs : s < 64) (f1 f2 : Bool) :
    mkTransportHdr s f1 f2 &&& 63 = s := by
  cases f1 <;> cases f2 <;> revert s <;> decide

theorem mkHdr_and64 (s : Nat) (hs : s < 64) (f1 f2 : Bool) :
    mkTransportHdr s f1 f2 &&& 64 = if f1 then 64 else 0 := by
  cases f1 <;> cases f2 <;> revert s <;> decide

theorem mkHdr_and128 (s : Nat) (hs : s < 64) (f1 f2 : Bool) :
    mkTransportHdr s f1 f2 &&& 128 = if f2 then 128 else 0 := by
  cases f1 <;> cases f2 <;> revert s <;> decide

theorem segLoop_cons (l : List Nat) (s : Nat) (f : Bool) (hl : l ≠ []) :
    segLoop l s f =
      segToBytes s f (decide (l.length ≤ 249)) (l.take 249) ::
        segLoop (l.drop 249) ((s + 1) &&& 63) false := by
  rw [segLoop]
  simp [hl]

theorem segLoop_length_pos (l : List Nat) (s : Nat) (f : Bool) (hl : l ≠ []) :
    0 < (segLoop l s f).length := by
  rw [segLoop_cons l s f hl]
  simp

theorem reassemble_first (st : RxState) (payload : List Nat) (s : Nat) (fin : Bool)
    (hs : s < 64) (hlen : payload.length ≤ 249) :
    reassemble st (mkTransportHdr s true fin :: payload) false =
      if fin then (initRx, .ok (some payload, true))
      else (⟨payload, some ((s + 1) &&& 63), true, some s⟩, .ok (none, false)) := by
  have h64 := mkHdr_and64 s hs true fin
  have h63 := mkHdr_and63 s hs true fin
  have h128 := mkHdr_and128 s hs true fin
  cases fin <;>
    simp [reassemble, h64, h63, h128, show ¬ (249 < payload.length) by omega]

theorem reassemble_step (acc payload : List Nat) (p s : Nat) (fin : Bool)
    (hs : s < 64) (hps : s ≠ p) (hlen : payload.length ≤ 249)
    (hsize : acc.length + payload.length ≤ 65536) :
    reassemble ⟨acc, some s, true, some p⟩ (mkTransportHdr s false fin :: payload) false =
      if fin then (initRx, .ok (some (acc ++ payload), true))
      else (⟨acc ++ payload, some ((s + 1) &&& 63), true, some s⟩, .ok (none, false)) := by
  have h64 := mkHdr_and64 s hs false fin
  have h63 := mkHdr_and63 s hs false fin
  have h128 := mkHdr_and128 s hs false fin
  cases fin <;>
    simp [reassemble, h64, h63, h128, Ne.symm hps,
      show ¬ (249 < payload.length) by omega,
      show ¬ (65536 < acc.length + payload.length) by omega]

theorem feedCont (n : Nat) : ∀ (l acc : List Nat) (p : Nat), l.length ≤ n → l ≠ [] →
    p < 64 → acc.length + l.length ≤ 65536 →
    feedAll ⟨acc, some ((p + 1) &&& 63), true, some p⟩
        (segLoop l ((p + 1) &&& 63) false) =
      some (List.replicate ((segLoop l ((p + 1) &&& 63) false).length - 1)
        ((none : Option (List Nat)), false) ++ [(some (acc ++ l), true)]) := by
  induction n with
  | zero =>
    intro l acc p hn hl
    exact absurd (List.length_eq_zero.mp (Nat.le_zero.mp hn)) hl
  | succ n ih =>
    intro l acc p hn hl hp hsize
    have hs : (p + 1) &&& 63 < 64 := and63_lt _
    have hsp : (p + 1) &&& 63 ≠ p := and63_succ_ne p hp
    have hlpos : 0 < l.length := List.length_pos.mpr hl
    rw [segLoop_cons l _ false hl]
    by_cases hfin : l.length ≤ 249
    · have htake : l.take 249 = l := List.take_of_length_le hfin
      have hdrop : l.drop 249 = [] := List.drop_eq_nil_of_le hfin
      rw [hdrop]
      simp only [feedAll, segToBytes, htake]
      rw [show (decide (l.length ≤ 249)) = true by simp [hfin]]
      rw [reassemble_step acc l p _ true hs hsp hfin (by omega)]
      simp [segLoop, feedAll]
    · have hlt : 249 < l.length := by omega
      have htklen : (l.take 249).length = 249 := by
        simp [List.length_take]
        omega
      have hdlen : (l.drop 249).length = l.length - 249 := List.length_drop _ _
      have hdne : l.drop 249 ≠ [] := by
        intro hcon
        have := congrArg List.length hcon
        simp [hdlen] at this
        omega
      simp only [feedAll, segToBytes]
      rw [show (decide (l.length ≤ 249)) = false by simp [hlt, Nat.not_le.mpr hlt]]
      rw [reassemble_step acc (l.take 249) p _ false hs hsp (by omega)
        (by rw [htklen]; omega)]
      simp only [ite_false, Bool.false_eq_true]
      have ihres := ih (l.drop 249) (acc ++ l.take 249) ((p + 1) &&& 63)
        (by omega) hdne hs
        (by rw [List.length_append, htklen, hdlen]; omega)
      rw [ihres]
      have hlen1 : 0 < (segLoop (l.drop 249) ((((p + 1) &&& 63) + 1) &&& 63) false).length :=
        segLoop_length_pos _ _ _ hdne
      rw [List.append_assoc, List.take_append_drop]
      simp only [Option.map_some', List.length_cons, Nat.add_sub_cancel]
      have hrep : ((none : Option (List Nat)), false) ::
          List.replicate
            ((segLoop (l.drop 249) ((((p + 1) &&& 63) + 1) &&& 63) false).length - 1)
            ((none : Option (List Nat)), false) =
          List.replicate
            ((segLoop (l.drop 249) ((((p + 1) &&& 63) + 1) &&& 63) false).length)
            ((none : Option (List Nat)), false) := by
        conv_rhs =>
          rw [show (segLoop (l.drop 249) ((((p + 1) &&& 63) + 1) &&& 63) false).length =
            ((segLoop (l.drop 249) ((((p + 1) &&& 63) + 1) &&& 63) false).length - 1) + 1
            by omega]
        rw [List.replicate_succ]
      rw [← List.cons_append, hrep]

/-- C2: feeding the segments produced by `TransportLayer.segment` for an APDU
of at most 65536 bytes, in order, into `TransportLayer.reassemble` from a
fresh receive state yields `(none, false)` for every segment but the last and
`(some A, true)` for the last; the empty APDU yields exactly one segment,
the lone FIR+FIN header byte 0xC0 with empty payload. -/
theorem segment_reassemble_roundtrip (A : List Nat) (hA : A.length ≤ 65536) :
    feedAll initRx (segmentTx A 0) =
      some (List.replicate ((segmentTx A 0).length - 1)
        ((none : Option (List Nat)), false) ++ [(some A, true)]) ∧
    (A = [] → segmentTx A 0 = [[192]]) := by
  constructor
  · by_cases hA0 : A = []
    · subst hA0
      decide
    · rw [show segmentTx A 0 = segLoop A 0 true by simp [segmentTx, hA0]]
      rw [segLoop_cons A 0 true hA0]
      by_cases hfin : A.length ≤ 249
      · have htake : A.take 249 = A := List.take_of_length_le hfin
        have hdrop : A.drop 249 = [] := List.drop_eq_nil_of_le hfin
        rw [hdrop]
        simp only [feedAll, segToBytes, htake]
        rw [show (decide (A.length ≤ 249)) = true by simp [hfin]]
        rw [reassemble_first initRx A 0 true (by norm_num) hfin]
        simp [segLoop, feedAll]
      · have hlt : 249 < A.length := by omega
        have htklen : (A.take 249).length = 249 := by
          simp [List.length_take]
          omega
        have hdlen : (A.drop 249).length = A.length - 249 := List.length_drop _ _
        have hdne : A.drop 249 ≠ [] := by
          intro hcon
          have := congrArg List.length hcon
          simp [hdlen] at this
          omega
        simp only [feedAll, segToBytes]
        rw [show (decide (A.length ≤ 249)) = false by simp [hlt, Nat.not_le.mpr hlt]]
        rw [reassemble_first initRx (A.take 249) 0 false (by norm_num) (by omega)]
        simp only [ite_false, Bool.false_eq_true]
        have ihres := feedCont (A.drop 249).length (A.drop 249) (A.take 249) 0
          (le_refl _) hdne (by norm_num)
          (by rw [htklen, hdlen]; omega)
        rw [ihres]
        rw [List.take_append_drop]
        simp only [Option.map_some', List.length_cons, Nat.add_sub_cancel]
        have hlen1 : 0 < (segLoop (A.drop 249) ((0 + 1) &&& 63) false).length :=
          segLoop_length_pos _ _ _ hdne
        have hrep : ((none : Option (List Nat)), false) ::
            List.replicate
              ((segLoop (A.drop 249) ((0 + 1) &&& 63) false).length - 1)
              ((none : Option (List Nat)), false) =
            List.replicate
              ((segLoop (A.drop 249) ((0 + 1) &&& 63) false).length)
              ((none : Option (List Nat)), false) := by
          conv_rhs =>
            rw [show (segLoop (A.drop 249) ((0 + 1) &&& 63) false).length =
              ((segLoop (A.drop 249) ((0 + 1) &&& 63) false).length - 1) + 1
              by omega]
          rw [List.replicate_succ]
        rw [← List.cons_append, hrep]
  · intro h
    subst h
    decide

/-- C2 witness: a concrete three-byte APDU round-trips through one segment. -/
theorem segment_reassemble_roundtrip_witness :
    ([7, 8, 9] : List Nat).length ≤ 65536 ∧
    (feedAll initRx (segmentTx [7, 8, 9] 0) =
      some (List.replicate ((segmentTx [7, 8, 9] 0).length - 1)
        ((none : Option (List Nat)), false) ++ [(some [7, 8, 9], true)]) ∧
    (([7, 8, 9] : List Nat) = [] → segmentTx [7, 8, 9] 0 = [[192]])) :=
  ⟨by decide, segment_reassemble_roundtrip [7, 8, 9] (by decide)⟩

theorem crcRound_lt (c : Nat) (hc : c < 65536) : crcRound c < 65536 := by
  have h1 : c >>> 1 < 65536 := by
    rw [Nat.shiftRight_eq_div_pow]
    exact lt_of_le_of_lt (Nat.div_le_self _ _) hc
  unfold crcRound
  split
  · have h16 : (65536 : Nat) = 2 ^ 16 := by norm_num
    rw [h16] at h1 ⊢
    exact Nat.xor_lt_two_pow h1 (by norm_num)
  · exact h1

theorem crcRound_iter_lt : ∀ (n c : Nat), c < 65536 → crcRound^[n] c < 65536
  | 0, _, h => h
  | n + 1, c, h => by
    rw [Function.iterate_succ_apply]
    exact crcRound_iter_lt n _ (crcRound_lt c h)

theorem crcUpdate_lt (crc b : Nat) (h : crc < 65536) : crcUpdate crc b < 65536 := by
  have h1 : crc >>> 8 < 65536 := by
    rw [Nat.shiftRight_eq_div_pow]
    exact lt_of_le_of_lt (Nat.div_le_self _ _) h
  have h2 : crcTable ((crc ^^^ b) &&& 255) < 65536 := by
    unfold crcTable
    exact crcRound_iter_lt 8 _ (lt_of_le_of_lt Nat.and_le_right (by norm_num))
  have h16 : (65536 : Nat) = 2 ^ 16 := by norm_num
  unfold crcUpdate
  rw [h16] at h1 h2 ⊢
  exact Nat.xor_lt_two_pow h1 h2

theorem crcFold_lt : ∀ (l : List Nat) (acc : Nat), acc < 65536 →
    l.foldl crcUpdate acc < 65536
  | [], _, h => h
  | b :: l, acc, h => by
    rw [List.foldl_cons]
    exact crcFold_lt l _ (crcUpdate_lt acc b h)

theorem crc16_lt (d : List Nat) : crc16 d < 65536 := by
  have h1 : d.foldl crcUpdate 0 < 65536 := crcFold_lt d 0 (by norm_num)
  have h16 : (65536 : Nat) = 2 ^ 16 := by norm_num
  unfold crc16
  rw [h16] at h1 ⊢
  exact Nat.xor_lt_two_pow h1 (by norm_num)

theorem le16_value (x : Nat) (hx : x < 65536) :
    (x &&& 255) + 256 * ((x >>> 8) &&& 255) = x := by
  have h255 : (255 : Nat) = 2 ^ 8 - 1 := by norm_num
  rw [h255, Nat.and_pow_two_sub_one_eq_mod, Nat.and_pow_two_sub_one_eq_mod,
    Nat.shiftRight_eq_div_pow]
  have h256 : (2 : Nat) ^ 8 = 256 := by norm_num
  rw [h256]
  omega

theorem readLE16_append (pre rest : List Nat) (a b : Nat) :
    readLE16 (pre ++ ([a, b] ++ rest)) pre.length = a + 256 * b := by
  unfold readLE16
  rw [List.getD_append_right pre _ 0 pre.length (le_refl _),
    List.getD_append_right pre _ 0 (pre.length + 1) (by omega)]
  simp

theorem readLE16_crc (pre rest : List Nat) (x : Nat) (hx : x < 65536) :
    readLE16 (pre ++ (le16 x ++ rest)) pre.length = x := by
  rw [show le16 x = [x &&& 255, (x >>> 8) &&& 255] from rfl,
    readLE16_append pre rest _ _, le16_value x hx]

theorem buildBlocks_nil : buildBlocks [] = [] := by
  rw [buildBlocks]
  simp

theorem buildBlocks_cons (u : List Nat) (hu : u ≠ []) :
    buildBlocks u = u.take 16 ++ crc16Bytes (u.take 16) ++ buildBlocks (u.drop 16) := by
  conv_lhs => rw [buildBlocks]
  simp [hu]

theorem parseBlocks_build : ∀ (n : Nat) (u pre : List Nat), u.length ≤ n →
    parseBlocks (pre ++ buildBlocks u) pre.length u.length =
      .ok (u, pre.length + (buildBlocks u).length) := by
  intro n
  induction n with
  | zero =>
    intro u pre hn
    have hu : u = [] := List.length_eq_zero.mp (Nat.le_zero.mp hn)
    subst hu
    rw [buildBlocks_nil, parseBlocks]
    simp
  | succ n ih =>
    intro u pre hn
    by_cases hu : u = []
    · subst hu
      rw [buildBlocks_nil, parseBlocks]
      simp
    · have hupos : 0 < u.length := List.length_pos.mpr hu
      have htk : (u.take 16).length = min 16 u.length := List.length_take _ _
      have hbs : min u.length 16 = (u.take 16).length := by
        rw [htk]
        omega
      have hcrclen : (crc16Bytes (u.take 16)).length = 2 := rfl
      have hdr : (u.drop 16).length = u.length - 16 := List.length_drop _ _
      rw [buildBlocks_cons u hu, parseBlocks]
      rw [dif_neg (by omega)]
      have hdata : pre ++ (u.take 16 ++ crc16Bytes (u.take 16) ++ buildBlocks (u.drop 16)) =
          (pre ++ u.take 16 ++ crc16Bytes (u.take 16)) ++ buildBlocks (u.drop 16) := by
        simp [List.append_assoc]
      have hlendata :
          (pre ++ (u.take 16 ++ crc16Bytes (u.take 16) ++ buildBlocks (u.drop 16))).length =
          pre.length + (u.take 16).length + 2 + (buildBlocks (u.drop 16)).length := by
        simp [List.length_append, hcrclen]
        omega
      rw [if_neg (by
        rw [hlendata]
        push_neg
        rw [hbs]
        omega)]
      have hdrop : (pre ++ (u.take 16 ++ crc16Bytes (u.take 16) ++ buildBlocks (u.drop 16))).drop
          pre.length = u.take 16 ++ crc16Bytes (u.take 16) ++ buildBlocks (u.drop 16) :=
        List.drop_left _ _
      have hblock : ((pre ++ (u.take 16 ++ crc16Bytes (u.take 16) ++
          buildBlocks (u.drop 16))).drop pre.length).take (min u.length 16) = u.take 16 := by
        rw [hdrop, hbs, List.append_assoc, List.take_left]
      have hcrcpos : pre.length + min u.length 16 = (pre ++ u.take 16).length := by
        rw [List.length_append, hbs]
      have hcrcread : readLE16 (pre ++ (u.take 16 ++ crc16Bytes (u.take 16) ++
          buildBlocks (u.drop 16))) (pre.length + min u.length 16) = crc16 (u.take 16) := by
        rw [hcrcpos, show pre ++ (u.take 16 ++ crc16Bytes (u.take 16) ++
            buildBlocks (u.drop 16)) = (pre ++ u.take 16) ++ (crc16Bytes (u.take 16) ++
            buildBlocks (u.drop 16)) by simp [List.append_assoc]]
        exact readLE16_crc _ _ _ (crc16_lt _)
      rw [hblock]
      rw [if_neg (by
        rw [hcrcread]
        simp)]
      have hpre2 : pre.length + min u.length 16 + 2 =
          (pre ++ u.take 16 ++ crc16Bytes (u.take 16)).length := by
        simp [List.length_append, hcrclen]
        omega
      have hrem : u.length - min u.length 16 = (u.drop 16).length := by
        rw [hdr]
        omega
      rw [hpre2, hrem, hdata]
      rw [ih (u.drop 16) (pre ++ u.take 16 ++ crc16Bytes (u.take 16)) (by omega)]
      simp only [List.length_append, hcrclen]
      rw [List.take_append_drop]
      simp [Nat.add_assoc]

theorem buildBlocks_length : ∀ (n : Nat) (u : List Nat), u.length ≤ n →
    (buildBlocks u).length = u.length + 2 * ((u.length + 15) / 16) := by
  intro n
  induction n with
  | zero =>
    intro u hn
    have hu : u = [] := List.length_eq_zero.mp (Nat.le_zero.mp hn)
    subst hu
    rw [buildBlocks_nil]
    simp
  | succ n ih =>
    intro u hn
    by_cases hu : u = []
    · subst hu
      rw [buildBlocks_nil]
      simp
    · have hupos : 0 < u.length := List.length_pos.mpr hu
      have hrec := ih (u.drop 16) (by
        rw [List.length_drop]
        omega)
      rw [buildBlocks_cons u hu]
      simp only [List.length_append, List.length_take, List.length_drop] at hrec ⊢
      rw [hrec]
      have hcrclen : (crc16Bytes (u.take 16)).length = 2 := rfl
      rw [hcrclen]
      rcases Nat.le_total 16 u.length with h16 | h16 <;> simp [Nat.min_def, h16] <;> omega

theorem calcFrameSize_eq (m : Nat) (hm : m ≤ 250) :
    calculateFrameSize (5 + m) = .ok (10 + m + 2 * ((m + 15) / 16)) := by
  unfold calculateFrameSize
  rw [if_neg (by omega), if_neg (by omega)]
  simp only [show 5 + m - 5 = m by omega]
  by_cases h0 : m = 0
  · subst h0
    simp
  · rw [if_neg h0, if_neg (by omega)]
    have harith : 10 + (m / 16) * 18 + (if m % 16 = 0 then 0 else m % 16 + 2) =
        10 + m + 2 * ((m + 15) / 16) := by
      split_ifs with h <;> omega
    rw [harith]

/-- C1: for user data of at most 250 bytes (and valid addresses), parsing the
frame built by `DataLinkLayer.build_frame` succeeds, recovers exactly the
user data, and consumes exactly `DataLinkLayer.calculate_frame_size` of the
frame byte at index 2 (the length byte). -/
theorem build_parse_frame_roundtrip (B : List Nat) (d s : Nat) (c f fb : Bool)
    (hB : B.length ≤ 250) (hd : d ≤ 65519) (hs : s ≤ 65519) :
    ∃ F fr n, buildFrame B d s c f fb = .ok F ∧ parseFrame F = .ok (fr, n) ∧
      fr.userData = B ∧ calculateFrameSize (F.getD 2 0) = .ok n := by
  have hbuild : buildFrame B d s c f fb = .ok
      (5 :: 100 :: (5 + B.length) :: dllControl c f fb :: (d &&& 255) ::
        ((d >>> 8) &&& 255) :: (s &&& 255) :: ((s >>> 8) &&& 255) ::
        (crc16 [5, 100, 5 + B.length, dllControl c f fb, d &&& 255, (d >>> 8) &&& 255,
          s &&& 255, (s >>> 8) &&& 255] &&& 255) ::
        ((crc16 [5, 100, 5 + B.length, dllControl c f fb, d &&& 255, (d >>> 8) &&& 255,
          s &&& 255, (s >>> 8) &&& 255] >>> 8) &&& 255) :: buildBlocks B) := by
    unfold buildFrame
    rw [if_neg (by omega), if_neg (by omega), if_neg (by omega)]
    rfl
  set ctl := dllControl c f fb with hctl
  set x := crc16 [5, 100, 5 + B.length, ctl, d &&& 255, (d >>> 8) &&& 255,
    s &&& 255, (s >>> 8) &&& 255] with hx
  have hxlt : x < 65536 := by
    rw [hx]
    exact crc16_lt _
  have hcrc : (x &&& 255) + 256 * ((x >>> 8) &&& 255) = x := le16_value x hxlt
  have hparse : parseFrame (5 :: 100 :: (5 + B.length) :: ctl :: (d &&& 255) ::
      ((d >>> 8) &&& 255) :: (s &&& 255) :: ((s >>> 8) &&& 255) :: (x &&& 255) ::
      ((x >>> 8) &&& 255) :: buildBlocks B) =
      .ok (⟨(d &&& 255) + 256 * ((d >>> 8) &&& 255),
        (s &&& 255) + 256 * ((s >>> 8) &&& 255), ctl, B⟩,
        10 + (buildBlocks B).length) := by
    simp only [parseFrame]
    rw [if_neg (by simp)]
    rw [if_neg (by rw [← hx, hcrc]; simp)]
    rw [if_neg (by omega)]
    by_cases hB0 : B = []
    · subst hB0
      simp [buildBlocks_nil]
    · rw [if_neg (by
        have := List.length_pos.mpr hB0
        omega)]
      have hpb := parseBlocks_build B.length B
        [5, 100, 5 + B.length, ctl, d &&& 255, (d >>> 8) &&& 255, s &&& 255,
          (s >>> 8) &&& 255, x &&& 255, (x >>> 8) &&& 255] (le_refl _)
      rw [show ([5, 100, 5 + B.length, ctl, d &&& 255, (d >>> 8) &&& 255, s &&& 255,
          (s >>> 8) &&& 255, x &&& 255, (x >>> 8) &&& 255] : List Nat).length = 10
        from rfl] at hpb
      rw [show 5 + B.length - 5 = B.length from by omega]
      rw [show (5 :: 100 :: (5 + B.length) :: ctl :: (d &&& 255) ::
          ((d >>> 8) &&& 255) :: (s &&& 255) :: ((s >>> 8) &&& 255) :: (x &&& 255) ::
          ((x >>> 8) &&& 255) :: buildBlocks B) =
          [5, 100, 5 + B.length, ctl, d &&& 255, (d >>> 8) &&& 255, s &&& 255,
            (s >>> 8) &&& 255, x &&& 255, (x >>> 8) &&& 255] ++ buildBlocks B from rfl]
      rw [hpb]
  have hcalc : calculateFrameSize ((5 :: 100 :: (5 + B.length) :: ctl :: (d &&& 255) ::
      ((d >>> 8) &&& 255) :: (s &&& 255) :: ((s >>> 8) &&& 255) :: (x &&& 255) ::
      ((x >>> 8) &&& 255) :: buildBlocks B).getD 2 0) =
      .ok (10 + (buildBlocks B).length) := by
    rw [show ((5 :: 100 :: (5 + B.length) :: ctl :: (d &&& 255) ::
      ((d >>> 8) &&& 255) :: (s &&& 255) :: ((s >>> 8) &&& 255) :: (x &&& 255) ::
      ((x >>> 8) &&& 255) :: buildBlocks B).getD 2 0) = 5 + B.length from rfl]
    rw [calcFrameSize_eq B.length hB, buildBlocks_length B.length B (le_refl _)]
    congr 1
    omega
  exact ⟨_, _, _, hbuild, hparse, rfl, hcalc⟩

/-- C1 witness: the round-trip at a concrete three-byte payload and the
default master/outstation addresses. -/
theorem build_parse_frame_roundtrip_witness :
    (([1, 2, 3] : List Nat).length ≤ 250 ∧ (10 : Nat) ≤ 65519 ∧ (1 : Nat) ≤ 65519) ∧
    (∃ F fr n, buildFrame [1, 2, 3] 10 1 true true false = .ok F ∧
      parseFrame F = .ok (fr, n) ∧ fr.userData = [1, 2, 3] ∧
      calculateFrameSize (F.getD 2 0) = .ok n) :=
  ⟨⟨by decide, by decide, by decide⟩,
    build_parse_frame_roundtrip [1, 2, 3] 10 1 true true false
      (by decide) (by decide) (by decide)⟩

/-- C6: the response parser has no double-bit packed path: for a counted
section of group 3 variation 1 (double-bit packed) the code raises a
`DNP3ObjectError` instead of computing `ceil(2*n/8)` bytes, although the
analogous packed groups 1 and 10 variation 1 do get `ceil(n/8)` and the
object-size table itself marks (3, 1) as packed/variable. -/
theorem double_bit_packed_size_missing :
    calculateObjectDataSize 3 1 0x07 4 0 0 = .error .object ∧
    calculateObjectDataSize 3 1 0x08 4 0 0 = .error .object ∧
    calculateObjectDataSize 1 1 0x07 4 0 0 = .ok 1 ∧
    calculateObjectDataSize 10 1 0x07 4 0 0 = .ok 1 ∧
    getObjectSize 3 1 = none :=
  ⟨rfl, rfl, rfl, rfl, rfl⟩

theorem segLoop_nil (s : Nat) (f : Bool) : segLoop [] s f = [] := by
  rw [segLoop]
  simp

theorem masterReadSeg : segmentTx [192, 1, 60, 1, 6] 0 = [[192, 192, 1, 60, 1, 6]] := by
  unfold segmentTx
  rw [if_neg (by decide), segLoop_cons _ _ _ (by decide)]
  rw [show List.drop 249 [192, 1, 60, 1, 6] = ([] : List Nat) from rfl, segLoop_nil]
  decide

theorem masterReadFrameEq :
    buildFrame [192, 192, 1, 60, 1, 6] 10 1 false false false =
      .ok ([5, 100, 11, 196, 10, 0, 1, 0] ++ crc16Bytes [5, 100, 11, 196, 10, 0, 1, 0] ++
        ([192, 192, 1, 60, 1, 6] ++ crc16Bytes [192, 192, 1, 60, 1, 6])) := by
  unfold buildFrame
  rw [if_neg (by decide), if_neg (by decide), if_neg (by decide)]
  rw [buildBlocks_cons _ (by decide)]
  rw [show List.take 16 [192, 192, 1, 60, 1, 6] = [192, 192, 1, 60, 1, 6] from rfl,
    show List.drop 16 [192, 192, 1, 60, 1, 6] = ([] : List Nat) from rfl, buildBlocks_nil]
  rfl

/-- C5 counterexample: the frame the master actually emits for the READ APDU
C0 01 3C 01 06 (unconfirmed link service, master 1, outstation 10) starts
05 64 0B C4 0A 00 01 00 — the length byte is 0x0B, not the 0x08 the claim
states, because the transport header byte is part of the user data. -/
theorem read_request_frame_counterexample :
    (sendRequestFrames [192, 1, 60, 1, 6] 0 false false 10 1).map
      (Except.map (fun fr => fr.take 8)) = [Except.ok [5, 100, 11, 196, 10, 0, 1, 0]] ∧
    ([Except.ok [5, 100, 11, 196, 10, 0, 1, 0]] : List (Except DLErr (List Nat))) ≠
      [Except.ok [5, 100, 8, 196, 10, 0, 1, 0]] := by
  constructor
  · unfold sendRequestFrames
    rw [masterReadSeg]
    simp only [List.map_cons, List.map_nil, masterReadFrameEq, Except.map]
    rw [show [5, 100, 11, 196, 10, 0, 1, 0] ++
        crc16Bytes [5, 100, 11, 196, 10, 0, 1, 0] ++
        ([192, 192, 1, 60, 1, 6] ++ crc16Bytes [192, 192, 1, 60, 1, 6]) =
        [5, 100, 11, 196, 10, 0, 1, 0] ++
        (crc16Bytes [5, 100, 11, 196, 10, 0, 1, 0] ++
        ([192, 192, 1, 60, 1, 6] ++ crc16Bytes [192, 192, 1, 60, 1, 6]))
      from by simp [List.append_assoc]]
    rw [List.take_left' (show ([5, 100, 11, 196, 10, 0, 1, 0] : List Nat).length = 8
      from rfl)]
  · simp

/-- C5 (amended): with the unconfirmed link service, the single emitted frame
for the READ APDU C0 01 3C 01 06 is the header 05 64 0B C4 0A 00 01 00, its
header CRC, the six user-data bytes C0 C0 01 3C 01 06 (transport header
followed by the APDU), and their block CRC. -/
theorem read_request_emitted_frame :
    sendRequestFrames [192, 1, 60, 1, 6] 0 false false 10 1 =
      [Except.ok ([5, 100, 11, 196, 10, 0, 1, 0] ++
        crc16Bytes [5, 100, 11, 196, 10, 0, 1, 0] ++
        ([192, 192, 1, 60, 1, 6] ++ crc16Bytes [192, 192, 1, 60, 1, 6]))] := by
  unfold sendRequestFrames
  rw [masterReadSeg]
  simp only [List.map_cons, List.map_nil, masterReadFrameEq]

/-- C4 counterexample: a response APDU whose single object section carries the
unrecognized qualifier 0x99 parses without any surfaced error — the
`DNP3ObjectError` is caught inside the section loop, which simply stops, and
`from_bytes` returns a response with no parsed objects. -/
theorem unknown_qualifier_swallowed :
    appResponseFromBytes [192, 129, 0, 0, 1, 2, 153] =
      .ok ⟨129, 0, true, true, false, false, 0, 0, [], [1, 2, 153]⟩ := by
  have hloop : parseObjectsLoop [192, 129, 0, 0, 1, 2, 153] 4 = .ok [] := by
    rw [parseObjectsLoop]
    rfl
  simp only [appResponseFromBytes]
  rw [if_neg (by decide), hloop]
  rfl

theorem parseObjectsLoop_ok : ∀ (n : Nat) (data : List Nat) (offset : Nat),
    data.length - offset ≤ n → 4 ≤ offset →
    ∃ l, parseObjectsLoop data offset = .ok l := by
  intro n
  induction n with
  | zero =>
    intro data offset hn h4
    rw [parseObjectsLoop, dif_pos (by omega)]
    exact ⟨[], rfl⟩
  | succ n ih =>
    intro data offset hn h4
    rw [parseObjectsLoop]
    by_cases hlen : data.length ≤ offset
    · rw [dif_pos hlen]
      exact ⟨[], rfl⟩
    · rw [dif_neg hlen]
      rcases hohb : objectHeaderFromBytes data offset with e | ⟨oh, hc⟩
      · simp only [hohb]
        exact ⟨[], rfl⟩
      · simp only [hohb]
        rcases hcalc : calculateObjectDataSize oh.group oh.variation oh.qualifier
            oh.count oh.rangeStart oh.rangeStop with e | dsz
        · simp only [hcalc]
          exact ⟨[], rfl⟩
        · simp only [hcalc]
          by_cases hfit : data.length < offset + (hc.val + dsz)
          · rw [if_pos hfit]
            exact ⟨[], rfl⟩
          · rw [if_neg hfit, if_neg (by omega)]
            obtain ⟨l, hl⟩ := ih data (offset + (hc.val + dsz))
              (by
                have := hc.property
                omega)
              (by omega)
            rw [hl]
            exact ⟨_, rfl⟩

/-- C4 (amended): object-section errors never surface from
`ApplicationLayer.parse_response`: for any well-formed response prefix (at
least 4 bytes, valid response function code) parsing returns normally; an
unrecognized qualifier or unknown object size merely stops the section loop. -/
theorem response_parse_no_object_error (data : List Nat) (h4 : 4 ≤ data.length)
    (hf : data.getD 1 0 = 0x81 ∨ data.getD 1 0 = 0x82 ∨ data.getD 1 0 = 0x83) :
    ∃ r, appResponseFromBytes data = .ok r := by
  rcases data with _ | ⟨c, data⟩
  · simp at h4
  rcases data with _ | ⟨f, data⟩
  · simp at h4
  rcases data with _ | ⟨i1, data⟩
  · simp at h4
  rcases data with _ | ⟨i2, rest⟩
  · simp at h4
  obtain ⟨l, hl⟩ := parseObjectsLoop_ok (c :: f :: i1 :: i2 :: rest).length
    (c :: f :: i1 :: i2 :: rest) 4 (by omega) (by omega)
  have hf2 : f = 0x81 ∨ f = 0x82 ∨ f = 0x83 := hf
  simp only [appResponseFromBytes]
  rw [if_neg (not_not_intro hf2), hl]
  exact ⟨_, rfl⟩

/-- C4 witness: the amended claim at the concrete unknown-qualifier response. -/
theorem response_parse_no_object_error_witness :
    (4 ≤ ([192, 129, 0, 0, 1, 2, 153] : List Nat).length ∧
      (([192, 129, 0, 0, 1, 2, 153] : List Nat).getD 1 0 = 0x81 ∨
        ([192, 129, 0, 0, 1, 2, 153] : List Nat).getD 1 0 = 0x82 ∨
        ([192, 129, 0, 0, 1, 2, 153] : List Nat).getD 1 0 = 0x83)) ∧
    ∃ r, appResponseFromBytes [192, 129, 0, 0, 1, 2, 153] = .ok r :=
  ⟨⟨by decide, by decide⟩,
    response_parse_no_object_error [192, 129, 0, 0, 1, 2, 153] (by decide) (by decide)⟩

theorem crobLoop_iff (raw : List Nat) (base : Nat) : ∀ (r i : Nat),
    base + (i + r) * 13 ≤ raw.length →
    (crobStatusLoop raw base 13 2 11 i r = true ↔
      ∀ j, i ≤ j → j < i + r → raw.getD (base + j * 13 + 12) 0 = 0) := by
  intro r
  induction r with
  | zero =>
    intro i hb
    simp only [crobStatusLoop]
    constructor
    · intro _ j hj1 hj2
      omega
    · intro _
      trivial
  | succ r ih =>
    intro i hb
    have hguard : ¬ (raw.length < base + i * 13 + 2 + 11) := by
      have : base + (i + (r + 1)) * 13 = base + i * 13 + 13 + r * 13 := by ring
      omega
    simp only [crobStatusLoop]
    rw [if_neg hguard]
    by_cases hst : raw.getD (base + i * 13 + 2 + 10) 0 ≠ 0
    · rw [if_pos hst]
      simp only [Bool.false_eq_true, false_iff]
      intro hall
      exact hst (by
        have := hall i (le_refl _) (by omega)
        rw [show base + i * 13 + 2 + 10 = base + i * 13 + 12 by omega]
        exact this)
    · rw [if_neg hst]
      push_neg at hst
      rw [ih (i + 1) (by
        have : i + 1 + r = i + (r + 1) := by omega
        rw [this]
        exact hb)]
      constructor
      · intro hrest j hj1 hj2
        by_cases hji : j = i
        · subst hji
          rw [show base + j * 13 + 12 = base + j * 13 + 2 + 10 by omega]
          exact hst
        · exact hrest j (by omega) (by omega)
      · intro hall j hj1 hj2
        exact hall j (by omega) (by omega)

theorem checkObj_crob (raw : List Nat) (o : ObjHeaderRec) (hg : o.group = 12)
    (hv : o.variation = 1) (hq : o.qualifier = 0x28)
    (hbound : o.dataOffset + o.count * 13 ≤ raw.length) :
    (checkObj raw o = true ↔
      ∀ i < o.count, raw.getD (o.dataOffset + i * 13 + 12) 0 = 0) := by
  obtain ⟨g, v, q, rs, rt, cnt, off⟩ := o
  dsimp only at hg hv hq hbound ⊢
  subst hg
  subst hv
  subst hq
  rw [show checkObj raw ⟨12, 1, 40, rs, rt, cnt, off⟩ =
    crobStatusLoop raw off 13 2 11 0 cnt from rfl]
  rw [crobLoop_iff raw off cnt 0 (by omega)]
  constructor
  · intro hall i hi
    exact hall i (by omega) (by omega)
  · intro hall j hj1 hj2
    exact hall j (by omega)

/-- C7: `direct_operate_binary` sends a Group 12 Var 1 CROB (the latch code
for the requested value) under DIRECT_OPERATE with qualifier 0x28 and count 1,
and for a response echoing only such sections that fit the buffer,
`_check_control_response` accepts exactly when the IIN carries no error bits
and every walked CROB status byte (offset 10 inside the CROB, after the
2-byte index) is 0. -/
theorem direct_operate_crob_check (index seq : Nat) (value : Bool) (r : ARsp)
    (hobjs : ∀ o ∈ r.objects, o.group = 12 ∧ o.variation = 1 ∧ o.qualifier = 0x28 ∧
      o.dataOffset + o.count * 13 ≤ r.rawData.length) :
    directOperateCrobAPDU index (latchCode value) seq =
      [appControlByte seq true true false, 5, 12, 1, 40, 1, index &&& 255,
        (index >>> 8) &&& 255, latchCode value, 1, 0, 0, 0, 0, 0, 0, 0, 0, 0] ∧
    (checkControlResponse r = true ↔
      (hasIINErrors r.iin2 = false ∧
        ∀ o ∈ r.objects, ∀ i < o.count,
          r.rawData.getD (o.dataOffset + i * 13 + 12) 0 = 0)) := by
  constructor
  · cases value <;> rfl
  · unfold checkControlResponse
    by_cases hi : hasIINErrors r.iin2 = true
    · simp [hi]
    · have hi2 : hasIINErrors r.iin2 = false := by
        revert hi
        cases hasIINErrors r.iin2 <;> simp
      rw [if_neg hi]
      rw [List.all_eq_true]
      constructor
      · intro hall
        refine ⟨hi2, fun o ho => ?_⟩
        obtain ⟨hg, hv, hq, hbound⟩ := hobjs o ho
        exact (checkObj_crob r.rawData o hg hv hq hbound).mp (hall o ho)
      · intro ⟨_, hall⟩ o ho
        obtain ⟨hg, hv, hq, hbound⟩ := hobjs o ho
        exact (checkObj_crob r.rawData o hg hv hq hbound).mpr (hall o ho)

/-- C7 witness: a successful echo — one Group-12 section, count 1, all-zero
CROB bytes, clean IIN. -/
theorem direct_operate_crob_check_witness :
    (∀ o ∈ (ARsp.mk 129 0 true true false false 0 0 [⟨12, 1, 40, 0, 0, 1, 0⟩]
        (List.replicate 13 0)).objects,
      o.group = 12 ∧ o.variation = 1 ∧ o.qualifier = 0x28 ∧
        o.dataOffset + o.count * 13 ≤
          (ARsp.mk 129 0 true true false false 0 0 [⟨12, 1, 40, 0, 0, 1, 0⟩]
            (List.replicate 13 0)).rawData.length) ∧
    (directOperateCrobAPDU 7 (latchCode true) 0 =
      [appControlByte 0 true true false, 5, 12, 1, 40, 1, 7 &&& 255,
        (7 >>> 8) &&& 255, latchCode true, 1, 0, 0, 0, 0, 0, 0, 0, 0, 0] ∧
    (checkControlResponse (ARsp.mk 129 0 true true false false 0 0
        [⟨12, 1, 40, 0, 0, 1, 0⟩] (List.replicate 13 0)) = true ↔
      (hasIINErrors (ARsp.mk 129 0 true true false false 0 0 [⟨12, 1, 40, 0, 0, 1, 0⟩]
          (List.replicate 13 0)).iin2 = false ∧
        ∀ o ∈ (ARsp.mk 129 0 true true false false 0 0 [⟨12, 1, 40, 0, 0, 1, 0⟩]
            (List.replicate 13 0)).objects,
          ∀ i < o.count,
            (ARsp.mk 129 0 true true false false 0 0 [⟨12, 1, 40, 0, 0, 1, 0⟩]
              (List.replicate 13 0)).rawData.getD (o.dataOffset + i * 13 + 12) 0 = 0))) :=
  ⟨by decide, direct_operate_crob_check 7 0 true _ (by decide)⟩

/-- C8: once the SELECT exchange has succeeded, OPERATE is sent exactly when
the elapsed wall time is strictly less than the configured select timeout;
when it is not, the operation fails without sending OPERATE. -/
theorem select_operate_window (r : ARsp) (e t : ℚ) (o : Option ARsp)
    (hsel : checkControlResponse r = true) :
    ((selectOperateFlow (some r) e t o).1 = true ↔ e < t) ∧
    (t ≤ e → selectOperateFlow (some r) e t o = (false, false)) := by
  constructor
  · dsimp only [selectOperateFlow]
    rw [if_neg (by simp [hsel])]
    by_cases ht : t ≤ e
    · rw [if_pos ht]
      exact iff_of_false (by simp) (not_lt.mpr ht)
    · rw [if_neg ht]
      have hlt : e < t := not_le.mp ht
      cases o <;> simp [hlt]
  · intro ht
    dsimp only [selectOperateFlow]
    rw [if_neg (by simp [hsel]), if_pos ht]

/-- C8 witness: with a one-second window, a SELECT answered after 0.9 s leads
to OPERATE being sent. -/
theorem select_operate_window_witness :
    checkControlResponse (ARsp.mk 129 0 true true false false 0 0 [] []) = true ∧
    (((selectOperateFlow (some (ARsp.mk 129 0 true true false false 0 0 [] []))
        (9 / 10) 1 none).1 = true ↔ (9 / 10 : ℚ) < 1) ∧
    ((1 : ℚ) ≤ 9 / 10 →
      selectOperateFlow (some (ARsp.mk 129 0 true true false false 0 0 [] []))
        (9 / 10) 1 none = (false, false))) :=
  ⟨rfl, select_operate_window (ARsp.mk 129 0 true true false false 0 0 [] [])
    (9 / 10) 1 none rfl⟩

theorem drop_take_cons (data : List Nat) (off n : Nat) (h : off < data.length) :
    (data.drop off).take (n + 1) = data.getD off 0 :: (data.drop (off + 1)).take n := by
  rw [List.drop_eq_getElem_cons h, List.take_succ_cons, List.getD_eq_getElem data 0 h]

theorem bi2_fromBytes_wide (data : List Nat) (off idx : Nat)
    (h : off + 7 ≤ data.length) :
    binaryInputFromBytes ((data.drop off).take 7) idx 2 =
      .ok ⟨idx, data.getD off 0 &&& 128 != 0, data.getD off 0,
        some (leBytes ((data.drop (off + 1)).take 6))⟩ := by
  rw [show (7 : Nat) = 6 + 1 from rfl, drop_take_cons data off 6 (by omega)]
  have hlen : 7 ≤ (data.getD off 0 :: (data.drop (off + 1)).take 6).length := by
    simp [List.length_take, List.length_drop]
    omega
  unfold binaryInputFromBytes
  rw [if_neg (by decide), if_pos rfl]
  dsimp only
  rw [if_pos hlen, List.take_take]
  rw [show min 6 6 = 6 from rfl]

theorem bi2_fromBytes_narrow (data : List Nat) (off idx : Nat)
    (h : off < data.length) :
    binaryInputFromBytes ((data.drop off).take 1) idx 2 =
      .ok ⟨idx, data.getD off 0 &&& 128 != 0, data.getD off 0, none⟩ := by
  rw [show (1 : Nat) = 0 + 1 from rfl, drop_take_cons data off 0 h]
  unfold binaryInputFromBytes
  rw [if_neg (by decide), if_pos rfl]
  dsimp only
  rw [if_neg (by simp)]

theorem parseBI2_wide (data : List Nat) (s : Nat) : ∀ (r i : Nat),
    (i + r) * 7 ≤ data.length →
    parseBIRecLoop data s 7 2 i (7 * i) r =
      .ok ((List.range r).map (fun j => bi2Wide data s (i + j))) := by
  intro r
  induction r with
  | zero =>
    intro i h
    simp [parseBIRecLoop]
  | succ r ih =>
    intro i h
    have hfit : ¬ (data.length < 7 * i + 7) := by
      have : (i + (r + 1)) * 7 = i * 7 + 7 + r * 7 := by ring
      omega
    simp only [parseBIRecLoop]
    rw [if_neg hfit]
    rw [bi2_fromBytes_wide data (7 * i) (s + i) (by omega)]
    rw [show 7 * i + 7 = 7 * (i + 1) by ring]
    rw [ih (i + 1) (by omega)]
    rw [List.range_succ_eq_map, List.map_cons, List.map_map]
    rw [show bi2Wide data s (i + 0) = bi2Wide data s i by rw [Nat.add_zero]]
    rw [show (List.map ((fun j => bi2Wide data s (i + j)) ∘ Nat.succ) (List.range r)) =
        List.map (fun j => bi2Wide data s (i + 1 + j)) (List.range r) from
      List.map_congr_left fun j _ => by
        simp only [Function.comp_apply, Nat.succ_eq_add_one]
        rw [show i + (j + 1) = i + 1 + j by omega]]
    rfl

theorem parseBI2_narrow (data : List Nat) (s : Nat) : ∀ (r i : Nat),
    parseBIRecLoop data s 1 2 i i r =
      .ok ((List.range (min r (data.length - i))).map
        (fun j => bi2Narrow data s (i + j))) := by
  intro r
  induction r with
  | zero =>
    intro i
    simp [parseBIRecLoop]
  | succ r ih =>
    intro i
    simp only [parseBIRecLoop]
    by_cases hc : data.length < i + 1
    · rw [if_pos hc]
      rw [show min (r + 1) (data.length - i) = 0 by omega]
      simp
    · rw [if_neg hc]
      rw [bi2_fromBytes_narrow data i (s + i) (by omega)]
      rw [ih (i + 1)]
      rw [show min (r + 1) (data.length - i) = min r (data.length - (i + 1)) + 1
        by omega]
      rw [List.range_succ_eq_map, List.map_cons, List.map_map]
      rw [show bi2Narrow data s (i + 0) = bi2Narrow data s i by rw [Nat.add_zero]]
      rw [show (List.map ((fun j => bi2Narrow data s (i + j)) ∘ Nat.succ)
          (List.range (min r (data.length - (i + 1))))) =
          List.map (fun j => bi2Narrow data s (i + 1 + j))
            (List.range (min r (data.length - (i + 1)))) from
        List.map_congr_left fun j _ => by
          simp only [Function.comp_apply, Nat.succ_eq_add_one]
          rw [show i + (j + 1) = i + 1 + j by omega]]
      rfl

/-- C10: `parse_binary_inputs` with variation 2 picks the record size from the
total data length — 7-byte records (flag byte plus 48-bit little-endian
absolute timestamp) when `len(data) >= 7 * count`, otherwise 1-byte flag-only
records — and stops without error as soon as a whole record no longer fits,
so the list may hold fewer than `count` points. -/
theorem parse_binary_inputs_v2 (data : List Nat) (s count : Nat) :
    parseBinaryInputs data s count 2 =
      .ok (if 7 * count ≤ data.length
        then (List.range count).map (bi2Wide data s)
        else (List.range (min count data.length)).map (bi2Narrow data s)) := by
  unfold parseBinaryInputs
  rw [if_neg (by decide), if_pos rfl]
  show parseBIRecLoop data s (if 7 * count ≤ data.length then 7 else 1) 2 0 0 count = _
  by_cases h7 : 7 * count ≤ data.length
  · rw [if_pos h7, if_pos h7]
    have hres := parseBI2_wide data s count 0 (by omega)
    rw [show (7 : Nat) * 0 = 0 from rfl] at hres
    rw [hres]
    congr 1
    refine List.map_congr_left fun j _ => ?_
    rw [Nat.zero_add]
  · rw [if_neg h7, if_neg h7]
    have hres := parseBI2_narrow data s count 0
    rw [show (0 : Nat) = 0 from rfl] at hres
    rw [hres]
    rw [show data.length - 0 = data.length from rfl]
    congr 1
    refine List.map_congr_left fun j _ => ?_
    rw [Nat.zero_add]
